import Mathlib

/-!
# Verification of the Linux-Task-Manager sampling / filtering / rendering core

This file is a shallow embedding, in Lean 4, of the core logic of
`task_manager_gui.py` (the `DataFetcher` background sampler and the
`TaskManagerGUI` filter / coalesce / render pipeline), together with proofs
about that embedding.

Modelling conventions:
* Python `float` arithmetic is modelled by exact arithmetic over `ℚ`.
  Python's `round(x, 1)` (and the `"{:.1f}"` display rounding) is modelled by
  exact round-half-to-even at one decimal (`pyRound1`).  All concrete
  counterexamples below sit far from any half-way rounding case, so they are
  robust to the binary-float representation error this abstraction ignores.
* OS calls (`psutil` process enumeration, per-process CPU / IO counters,
  accessibility checks, `terminate()`) are modelled by oracle inputs: each
  enumerated process carries the data the OS would have returned, with
  `Option` encoding the `AccessDenied` / `NoSuchProcess` exception outcomes
  that the source catches.
* Python `dict` objects keyed by pid (`DataFetcher.process_cache`) are
  modelled by association lists with first-match lookup.
-/

/-! ## Small Python string helpers -/

/-- Python `str.lower()` (ASCII-faithful), on a Lean `String`. -/
def pyLower (s : String) : String :=
  String.mk (s.data.map Char.toLower)

/-- Python `str.strip()`: remove leading and trailing whitespace. -/
def pyStrip (s : String) : String :=
  String.mk (((s.data.dropWhile Char.isWhitespace).reverse.dropWhile
    Char.isWhitespace).reverse)

/-- Python substring containment `needle in hay` on char lists. -/
def listContainsSub (needle : List Char) : List Char → Bool
  | [] => needle.isEmpty
  | c :: rest => needle.isPrefixOf (c :: rest) || listContainsSub needle rest

/-- Python `s.rpartition('\\')[2]`: the part after the last backslash
(the whole string when there is no backslash). -/
def afterLastBackslash (l : List Char) : List Char :=
  (l.reverse.takeWhile (fun c => c ≠ '\\')).reverse

/-! ## Python one-decimal rounding (`round(x, 1)` / `"{:.1f}"`) -/

/-- Round a rational to the nearest integer, ties to even
(the rounding mode of Python's `round` and of `"%.1f"` formatting). -/
def roundHalfEven (q : ℚ) : ℤ :=
  let f := ⌊q⌋
  let frac := q - f
  if frac < 1/2 then f
  else if 1/2 < frac then f + 1
  else if f % 2 = 0 then f else f + 1

/-- Python `round(x, 1)`: round to one decimal digit, ties to even. -/
def pyRound1 (q : ℚ) : ℚ :=
  (roundHalfEven (q * 10) : ℚ) / 10

theorem roundHalfEven_intCast (n : ℤ) : roundHalfEven (n : ℚ) = n := by
  simp [roundHalfEven]

theorem pyRound1_zero : pyRound1 0 = 0 := by
  have h : roundHalfEven (0 : ℚ) = 0 := by
    simpa using roundHalfEven_intCast 0
  simp [pyRound1, h]

/-! ## Data model

`ProcRecord` is the per-process dictionary built by `DataFetcher.run`
(keys `pid`, `name`, `username`, `cpu_percent`, `memory_mb`,
`memory_percent`, `disk_io_mb`).  `MemInfo` is the `mem_info` dictionary
(GB-rounded totals plus a one-decimal used percentage). -/

structure ProcRecord where
  pid : Int
  name : String
  username : String
  cpu_percent : ℚ
  memory_mb : ℚ
  memory_percent : ℚ
  disk_io_mb : ℚ
deriving DecidableEq, Repr

structure MemInfo where
  total : ℚ
  used : ℚ
  available : ℚ
  percent : ℚ
deriving DecidableEq, Repr

/-! ## Filter pipeline (`TaskManagerGUI._apply_search_filter` and the
predicates it uses) -/

/-- The fixed account set of `TaskManagerGUI.is_system_process`. -/
def system_users : List String :=
  ["root", "system", "local system", "nt authority\\system",
   "nt authority\\localservice", "nt authority\\networkservice",
   "localservice", "networkservice"]

/-- `TaskManagerGUI.is_system_process`: pid in {0,1,2}, or the lower-cased
owning user is in the fixed `system_users` set. -/
def is_system_process (p : ProcRecord) : Bool :=
  if p.pid = 0 ∨ p.pid = 1 ∨ p.pid = 2 then true
  else if system_users.contains (pyLower p.username) then true
  else false

/-- Step 1 of `_apply_search_filter`: drop system processes when the
hide-system checkbox is checked. -/
def systemFilterStep (hideSystem : Bool) (procs : List ProcRecord) :
    List ProcRecord :=
  if hideSystem then procs.filter (fun p => ¬ is_system_process p) else procs

/-- Step 2 of `_apply_search_filter`: drop inaccessible processes when the
hide-inaccessible checkbox is checked.  `is_inaccessible_process` performs
OS calls (`psutil.Process(pid).exe()`, `os.path.exists`, `os.access`), so the
predicate is an oracle parameter `inacc`. -/
def inaccessibleFilterStep (hideInaccessible : Bool)
    (inacc : ProcRecord → Bool) (procs : List ProcRecord) : List ProcRecord :=
  if hideInaccessible then procs.filter (fun p => ¬ inacc p) else procs

/-- Step 3 of `_apply_search_filter`: keep rows whose lower-cased name
contains the stripped, lower-cased search text, when that text is nonempty. -/
def searchFilterStep (searchRaw : String) (procs : List ProcRecord) :
    List ProcRecord :=
  let searchText := pyLower (pyStrip searchRaw)
  if searchText ≠ "" then
    procs.filter (fun p => listContainsSub searchText.data (pyLower p.name).data)
  else procs

/-- `TaskManagerGUI._apply_search_filter`, as a pure function of the cached
process list, the two checkbox states, the raw search text and the
inaccessibility oracle.  Returns the filtered rows scheduled for rendering
together with the pre-filter total count. -/
def apply_search_filter (cached : List ProcRecord)
    (hideSystem hideInaccessible : Bool) (searchRaw : String)
    (inacc : ProcRecord → Bool) : List ProcRecord × Nat :=
  let total := cached.length
  let procs := systemFilterStep hideSystem cached
  let procs := inaccessibleFilterStep hideInaccessible inacc procs
  let procs := searchFilterStep searchRaw procs
  (procs, total)

theorem systemFilterStep_sublist (h : Bool) (procs : List ProcRecord) :
    (systemFilterStep h procs).Sublist procs := by
  cases h <;> simp [systemFilterStep, List.filter_sublist]

theorem inaccessibleFilterStep_sublist (h : Bool) (inacc : ProcRecord → Bool)
    (procs : List ProcRecord) :
    (inaccessibleFilterStep h inacc procs).Sublist procs := by
  cases h <;> simp [inaccessibleFilterStep, List.filter_sublist]

theorem searchFilterStep_sublist (s : String) (procs : List ProcRecord) :
    (searchFilterStep s procs).Sublist procs := by
  unfold searchFilterStep
  by_cases hs : pyLower (pyStrip s) ≠ "" <;> simp [hs, List.filter_sublist]

/-- Claim C1: the filter pipeline applies the system filter, then the inaccessible
filter, then the search filter, in that fixed order, each step narrowing
(a sublist of) the previous result; the filtered row list is never longer
than the cached snapshot's process list, and the reported total always
equals the unfiltered length. -/
theorem filter_pipeline_order_and_counts (cached : List ProcRecord)
    (hideSystem hideInaccessible : Bool) (searchRaw : String)
    (inacc : ProcRecord → Bool) :
    (apply_search_filter cached hideSystem hideInaccessible searchRaw inacc).1
        = searchFilterStep searchRaw
            (inaccessibleFilterStep hideInaccessible inacc
              (systemFilterStep hideSystem cached))
    ∧ (searchFilterStep searchRaw
        (inaccessibleFilterStep hideInaccessible inacc
          (systemFilterStep hideSystem cached))).Sublist
        (inaccessibleFilterStep hideInaccessible inacc
          (systemFilterStep hideSystem cached))
    ∧ (inaccessibleFilterStep hideInaccessible inacc
        (systemFilterStep hideSystem cached)).Sublist
        (systemFilterStep hideSystem cached)
    ∧ (systemFilterStep hideSystem cached).Sublist cached
    ∧ (apply_search_filter cached hideSystem hideInaccessible searchRaw
        inacc).1.length ≤ cached.length
    ∧ (apply_search_filter cached hideSystem hideInaccessible searchRaw
        inacc).2 = cached.length := by
  refine ⟨rfl, searchFilterStep_sublist _ _, inaccessibleFilterStep_sublist _ _ _,
    systemFilterStep_sublist _ _, ?_, rfl⟩
  have h1 := (searchFilterStep_sublist searchRaw
    (inaccessibleFilterStep hideInaccessible inacc
      (systemFilterStep hideSystem cached))).length_le
  have h2 := (inaccessibleFilterStep_sublist hideInaccessible inacc
    (systemFilterStep hideSystem cached)).length_le
  have h3 := (systemFilterStep_sublist hideSystem cached).length_le
  exact le_trans h1 (le_trans h2 h3)

/-! ## The background sampler (`DataFetcher`)

One sampling cycle of `DataFetcher.run` is modelled as a pure function of
the fetcher state and a list of oracle inputs, one per process enumerated by
`psutil.process_iter` (processes that vanish or deny access during
enumeration are skipped by the source and therefore simply absent from the
input list). -/

/-- Oracle data for one enumerated process: the values the OS returns during
one cycle.  `cpuMeasure = none` models `cpu_percent()` raising
`AccessDenied`/`NoSuchProcess`; `ioBytes = none` models `io_counters()`
raising (or being unsupported). -/
structure ProcInput where
  pid : Int
  name : String
  usernameRaw : Option String
  rss : Nat
  cpuMeasure : Option ℚ
  ioBytes : Option (Nat × Nat)
deriving DecidableEq, Repr

/-- The pid-keyed CPU cache `DataFetcher.process_cache`, as an association
list with Python-dict semantics (first-match lookup, in-place update). -/
def CpuCache := List (Int × ℚ)

/-- Dictionary lookup `cache.get(pid)`. -/
def cacheGet : List (Int × ℚ) → Int → Option ℚ
  | [], _ => none
  | e :: t, p => if e.1 = p then some e.2 else cacheGet t p

/-- Dictionary update `cache[pid] = v`. -/
def cacheSet : List (Int × ℚ) → Int → ℚ → List (Int × ℚ)
  | [], p, v => [(p, v)]
  | e :: t, p, v => if e.1 = p then (p, v) :: t else e :: cacheSet t p v

/-- Mutable fields of `DataFetcher`. -/
structure FetcherState where
  process_cache : List (Int × ℚ)
  total_memory : Nat
  cpu_sample_rate : Nat
  cpu_sample_counter : Nat
  cpu_initialized : Bool
deriving DecidableEq, Repr

/-- `DataFetcher.__init__`: empty cache, total physical memory captured once,
CPU duty cycle of 4, counter 0, warm-up not yet done. -/
def initFetcher (totalMemoryBytes : Nat) : FetcherState :=
  { process_cache := []
    total_memory := totalMemoryBytes
    cpu_sample_rate := 4
    cpu_sample_counter := 0
    cpu_initialized := false }

/-- The 50 MB resident-memory threshold below which disk I/O is not measured
(`DataFetcher._disk_io_threshold_mb`). -/
def disk_io_threshold_mb : ℚ := 50

/-- The body of the per-process loop in `DataFetcher.run` (lines 337-383):
builds one `ProcRecord` and the updated CPU cache. -/
def procStep (doSample init : Bool) (totalMem : Nat)
    (cache : List (Int × ℚ)) (inp : ProcInput) :
    ProcRecord × List (Int × ℚ) :=
  let memory_mb := pyRound1 ((inp.rss : ℚ) / 1048576)
  let cpuAndCache : ℚ × List (Int × ℚ) :=
    if doSample then
      match inp.cpuMeasure with
      | none => (0, cache)
      | some v =>
        if init then (v, cacheSet cache inp.pid v)
        else (0, cacheSet cache inp.pid 0)
    else ((cacheGet cache inp.pid).getD 0, cache)
  let disk_mb : ℚ :=
    if disk_io_threshold_mb < memory_mb then
      match inp.ioBytes with
      | some rw => pyRound1 (((rw.1 : ℚ) + (rw.2 : ℚ)) / 1048576)
      | none => 0
    else 0
  let uname0 := match inp.usernameRaw with
    | none => "unknown"
    | some s => if s = "" then "unknown" else s
  let uname1 := if uname0.data.contains '\\' then
      String.mk (afterLastBackslash uname0.data)
    else uname0
  ({ pid := inp.pid
     name := String.mk (inp.name.data.take 30)
     username := String.mk (uname1.data.take 15)
     cpu_percent := pyRound1 cpuAndCache.1
     memory_mb := memory_mb
     memory_percent := pyRound1 ((inp.rss : ℚ) / (totalMem : ℚ) * 100)
     disk_io_mb := disk_mb }, cpuAndCache.2)

/-- The per-process loop of `DataFetcher.run`, threading the CPU cache. -/
def runProcs (doSample init : Bool) (totalMem : Nat) :
    List (Int × ℚ) → List ProcInput → List ProcRecord × List (Int × ℚ)
  | cache, [] => ([], cache)
  | cache, inp :: rest =>
    let step := procStep doSample init totalMem cache inp
    let tail := runProcs doSample init totalMem step.2 rest
    (step.1 :: tail.1, tail.2)

/-- One full cycle of `DataFetcher.run`: per-process loop, cache pruning,
warm-up flag update, duty-cycle counter advance, and the final
sort-descending-by-memory (`processes.sort(key=..., reverse=True)`;
Python's sort is stable, modelled here by the stable `insertionSort`). -/
def runCycle (st : FetcherState) (inputs : List ProcInput) :
    List ProcRecord × FetcherState :=
  let doSample := st.cpu_sample_counter = 0
  let core := runProcs doSample st.cpu_initialized st.total_memory
    st.process_cache inputs
  let currentPids := core.1.map (·.pid)
  let prunedCache := core.2.filter (fun e => currentPids.contains e.1)
  let init' := if doSample ∧ st.cpu_initialized = false then true
    else st.cpu_initialized
  let sorted := List.insertionSort
    (fun a b : ProcRecord => b.memory_mb ≤ a.memory_mb) core.1
  (sorted,
   { st with
      process_cache := prunedCache
      cpu_initialized := init'
      cpu_sample_counter := (st.cpu_sample_counter + 1) % st.cpu_sample_rate })

/-! ### Cache lemmas -/

theorem cacheGet_cacheSet_self (c : List (Int × ℚ)) (p : Int) (v : ℚ) :
    cacheGet (cacheSet c p v) p = some v := by
  induction c with
  | nil => simp [cacheGet, cacheSet]
  | cons e t ih =>
    by_cases h : e.1 = p
    · simp [cacheGet, cacheSet, h]
    · simp [cacheGet, cacheSet, h, ih]

theorem cacheGet_cacheSet_ne (c : List (Int × ℚ)) (p q : Int) (v : ℚ)
    (h : q ≠ p) : cacheGet (cacheSet c p v) q = cacheGet c q := by
  have h' : p ≠ q := Ne.symm h
  induction c with
  | nil => simp [cacheGet, cacheSet, h']
  | cons e t ih =>
    by_cases he : e.1 = p
    · subst he
      simp [cacheGet, cacheSet, h']
    · by_cases hq : e.1 = q
      · simp only [cacheSet, if_neg he]
        simp [cacheGet, hq]
      · simp only [cacheSet, if_neg he]
        simp [cacheGet, hq, ih]

theorem cacheGet_filter_mem (c : List (Int × ℚ)) (keep : Int → Bool)
    (p : Int) (hp : keep p = true) :
    cacheGet (c.filter (fun e => keep e.1)) p = cacheGet c p := by
  induction c with
  | nil => simp
  | cons e t ih =>
    by_cases he : e.1 = p
    · subst he
      simp [List.filter_cons, hp, cacheGet]
    · by_cases hk : keep e.1 = true
      · simp [List.filter_cons, hk, cacheGet, he, ih]
      · rw [List.filter_cons, if_neg (by simpa using hk), ih]
        rw [cacheGet, if_neg he]

/-- `procStep` touches the cache only at the key `inp.pid`. -/
theorem procStep_cacheGet_ne (doSample init : Bool) (totalMem : Nat)
    (cache : List (Int × ℚ)) (inp : ProcInput) (q : Int) (h : q ≠ inp.pid) :
    cacheGet (procStep doSample init totalMem cache inp).2 q =
      cacheGet cache q := by
  unfold procStep
  cases doSample <;> cases hcpu : inp.cpuMeasure <;> cases init <;>
    simp [hcpu, cacheGet_cacheSet_ne _ _ _ _ h]

/-- The record built by `procStep` carries the input's pid. -/
theorem procStep_pid (doSample init : Bool) (totalMem : Nat)
    (cache : List (Int × ℚ)) (inp : ProcInput) :
    (procStep doSample init totalMem cache inp).1.pid = inp.pid := rfl

/-! ### Structure of one sampling cycle -/

/-- Every input produces exactly one record, in order, with the same pid. -/
theorem runProcs_map_pid (doSample init : Bool) (totalMem : Nat)
    (cache : List (Int × ℚ)) (inputs : List ProcInput) :
    (runProcs doSample init totalMem cache inputs).1.map (·.pid) =
      inputs.map (·.pid) := by
  induction inputs generalizing cache with
  | nil => rfl
  | cons inp rest ih => simp [runProcs, procStep_pid, ih]

/-- The per-process loop leaves cache entries of absent pids unchanged. -/
theorem runProcs_cacheGet_not_mem (doSample init : Bool) (totalMem : Nat)
    (cache : List (Int × ℚ)) (inputs : List ProcInput) (p : Int)
    (hp : p ∉ inputs.map (·.pid)) :
    cacheGet (runProcs doSample init totalMem cache inputs).2 p =
      cacheGet cache p := by
  induction inputs generalizing cache with
  | nil => rfl
  | cons inp rest ih =>
    simp only [List.map_cons, List.mem_cons, not_or] at hp
    rw [runProcs]
    exact (ih _ hp.2).trans
      (procStep_cacheGet_ne doSample init totalMem cache inp p hp.1)

/-- Each produced record is the `procStep` image of some input, computed
with a cache whose other-pid entries do not matter. -/
theorem runProcs_mem_weak (doSample init : Bool) (totalMem : Nat)
    (cache : List (Int × ℚ)) (inputs : List ProcInput) (r : ProcRecord)
    (hr : r ∈ (runProcs doSample init totalMem cache inputs).1) :
    ∃ inp ∈ inputs, ∃ c',
      r = (procStep doSample init totalMem c' inp).1 := by
  induction inputs generalizing cache with
  | nil => cases hr
  | cons inp rest ih =>
    rw [runProcs] at hr
    rcases List.mem_cons.mp hr with h | h
    · exact ⟨inp, List.mem_cons_self _ _, cache, h⟩
    · obtain ⟨inp', hmem, c', hc'⟩ := ih _ h
      exact ⟨inp', List.mem_cons_of_mem _ hmem, c', hc'⟩

/-- As `runProcs_mem_weak`, but when the input pids are distinct the cache
used for each record agrees, on that record's own pid, with the cycle-start
cache. -/
theorem runProcs_mem_nodup (doSample init : Bool) (totalMem : Nat)
    (cache : List (Int × ℚ)) (inputs : List ProcInput) (r : ProcRecord)
    (hn : (inputs.map (·.pid)).Nodup)
    (hr : r ∈ (runProcs doSample init totalMem cache inputs).1) :
    ∃ inp ∈ inputs, ∃ c',
      cacheGet c' inp.pid = cacheGet cache inp.pid ∧
      r = (procStep doSample init totalMem c' inp).1 := by
  induction inputs generalizing cache with
  | nil => cases hr
  | cons inp rest ih =>
    rw [runProcs] at hr
    simp only [List.map_cons, List.nodup_cons] at hn
    rcases List.mem_cons.mp hr with h | h
    · exact ⟨inp, List.mem_cons_self _ _, cache, rfl, h⟩
    · obtain ⟨inp', hmem, c', hc', hre⟩ := ih _ hn.2 h
      refine ⟨inp', List.mem_cons_of_mem _ hmem, c', ?_, hre⟩
      rw [hc']
      refine procStep_cacheGet_ne doSample init totalMem cache inp inp'.pid ?_
      intro hcontra
      exact hn.1 (hcontra ▸ List.mem_map_of_mem (·.pid) hmem)

/-- On a CPU sample cycle, a successfully measured process ends the
per-process loop with its cache entry set: to the measured value after
warm-up, to `0` during warm-up. -/
theorem procStep_cache_self_sample (init : Bool) (totalMem : Nat)
    (cache : List (Int × ℚ)) (inp : ProcInput) (v : ℚ)
    (hv : inp.cpuMeasure = some v) :
    cacheGet (procStep true init totalMem cache inp).2 inp.pid =
      some (if init then v else 0) := by
  unfold procStep
  cases init <;> simp [hv, cacheGet_cacheSet_self]

theorem runProcs_cache_sample (init : Bool) (totalMem : Nat)
    (cache : List (Int × ℚ)) (inputs : List ProcInput) (inp : ProcInput)
    (v : ℚ) (hn : (inputs.map (·.pid)).Nodup) (hm : inp ∈ inputs)
    (hv : inp.cpuMeasure = some v) :
    cacheGet (runProcs true init totalMem cache inputs).2 inp.pid =
      some (if init then v else 0) := by
  induction inputs generalizing cache with
  | nil => cases hm
  | cons a rest ih =>
    simp only [List.map_cons, List.nodup_cons] at hn
    rw [runProcs]
    rcases List.mem_cons.mp hm with h | h
    · subst h
      rw [runProcs_cacheGet_not_mem _ _ _ _ _ _ hn.1]
      exact procStep_cache_self_sample init totalMem cache inp v hv
    · exact ih _ hn.2 h

theorem runCycle_fst (st : FetcherState) (inputs : List ProcInput) :
    (runCycle st inputs).1 = List.insertionSort
      (fun a b : ProcRecord => b.memory_mb ≤ a.memory_mb)
      (runProcs (decide (st.cpu_sample_counter = 0)) st.cpu_initialized
        st.total_memory st.process_cache inputs).1 := rfl

theorem runCycle_cache (st : FetcherState) (inputs : List ProcInput) :
    (runCycle st inputs).2.process_cache =
      (runProcs (decide (st.cpu_sample_counter = 0)) st.cpu_initialized
        st.total_memory st.process_cache inputs).2.filter
        (fun e => ((runProcs (decide (st.cpu_sample_counter = 0))
          st.cpu_initialized st.total_memory st.process_cache
          inputs).1.map (·.pid)).contains e.1) := rfl

theorem runCycle_total (st : FetcherState) (inputs : List ProcInput) :
    (runCycle st inputs).2.total_memory = st.total_memory := rfl

/-- Sorting is a permutation, so cycle membership is loop membership. -/
theorem runCycle_mem (st : FetcherState) (inputs : List ProcInput)
    (r : ProcRecord) :
    r ∈ (runCycle st inputs).1 ↔
      r ∈ (runProcs (decide (st.cpu_sample_counter = 0)) st.cpu_initialized
        st.total_memory st.process_cache inputs).1 := by
  rw [runCycle_fst]
  exact (List.perm_insertionSort _ _).mem_iff

/-! ### Evaluating `pyRound1` away from half-way points -/

theorem roundHalfEven_low (q : ℚ) (n : ℤ) (h1 : (n : ℚ) ≤ q)
    (h2 : q < (n : ℚ) + 1/2) : roundHalfEven q = n := by
  have hf : ⌊q⌋ = n := Int.floor_eq_iff.mpr ⟨h1, by linarith⟩
  unfold roundHalfEven
  rw [hf, if_pos (by linarith)]

theorem roundHalfEven_high (q : ℚ) (n : ℤ) (h1 : (n : ℚ) + 1/2 < q)
    (h2 : q < (n : ℚ) + 1) : roundHalfEven q = n + 1 := by
  have hf : ⌊q⌋ = n := Int.floor_eq_iff.mpr ⟨by linarith, h2⟩
  unfold roundHalfEven
  rw [hf, if_neg (by linarith), if_pos (by linarith)]

theorem pyRound1_low (q : ℚ) (n : ℤ) (h1 : (n : ℚ) ≤ q * 10)
    (h2 : q * 10 < (n : ℚ) + 1/2) : pyRound1 q = (n : ℚ) / 10 := by
  rw [pyRound1, roundHalfEven_low (q * 10) n h1 h2]

theorem pyRound1_high (q : ℚ) (n : ℤ) (h1 : (n : ℚ) + 1/2 < q * 10)
    (h2 : q * 10 < (n : ℚ) + 1) : pyRound1 q = ((n : ℚ) + 1) / 10 := by
  rw [pyRound1, roundHalfEven_high (q * 10) n h1 h2]
  push_cast
  ring

/-! ### Claims about the sampler's per-record fields -/

/-- A concrete fetcher state: 1 GiB of physical memory, mid-duty-cycle. -/
def stC3 : FetcherState :=
  { process_cache := []
    total_memory := 1073741824
    cpu_sample_rate := 4
    cpu_sample_counter := 1
    cpu_initialized := true }

/-- A concrete enumerated process occupying 1.5 MiB of resident memory. -/
def inpC3 : ProcInput :=
  { pid := 1
    name := "proc"
    usernameRaw := some "user"
    rss := 1572864
    cpuMeasure := none
    ioBytes := none }

/-- The record the sampler produces for `inpC3` in state `stC3`. -/
def recC3 : ProcRecord :=
  { pid := 1
    name := "proc"
    username := "user"
    cpu_percent := 0
    memory_mb := 3/2
    memory_percent := 1/10
    disk_io_mb := 0 }

theorem pyRound1_mbC3 : pyRound1 ((1572864 : ℚ) / 1048576) = 3/2 := by
  have h := pyRound1_low ((1572864 : ℚ) / 1048576) 15 (by norm_num) (by norm_num)
  rw [h]
  norm_num

theorem pyRound1_pctC3 :
    pyRound1 ((1572864 : ℚ) / 1073741824 * 100) = 1/10 := by
  have h := pyRound1_low ((1572864 : ℚ) / 1073741824 * 100) 1 (by norm_num)
    (by norm_num)
  rw [h]
  norm_num

/-- Evaluation of one full sampling cycle on `stC3` / `inpC3`. -/
theorem runCycle_stC3_eval : (runCycle stC3 [inpC3]).1 = [recC3] := by
  rw [runCycle_fst]
  have h1 : decide (stC3.cpu_sample_counter = 0) = false := by rfl
  rw [h1]
  show [(procStep false stC3.cpu_initialized stC3.total_memory
    stC3.process_cache inpC3).1] = [recC3]
  unfold procStep
  simp only [stC3, inpC3, recC3, cacheGet, Option.getD, cond]
  rw [List.cons_eq_cons]
  refine ⟨?_, rfl⟩
  rw [ProcRecord.mk.injEq]
  refine ⟨rfl, by rfl, by rfl, ?_, ?_, ?_, ?_⟩
  · exact pyRound1_zero
  · exact pyRound1_mbC3
  · push_cast
    exact pyRound1_pctC3
  · rw [if_neg]
    push_cast
    rw [pyRound1_mbC3]
    unfold disk_io_threshold_mb
    norm_num

/-- Claim C3 counterexample: in a 1 GiB system, a process with
`rss = 1572864` bytes gets `memory_mb = 1.5` and `memory_percent = 0.1`,
but `memory_mb * 1048576 / total_physical_memory_bytes * 100 = 75/512
≈ 0.1465`: the claimed equation is false because `memory_percent` is
computed from the raw `rss` and rounded to one decimal, not derived from
the rounded `memory_mb` field. -/
theorem memory_percent_equation_cex :
    (runCycle stC3 [inpC3]).1 = [recC3]
    ∧ recC3.memory_percent = 1/10
    ∧ recC3.memory_mb * 1048576 / (stC3.total_memory : ℚ) * 100 = 75/512
    ∧ recC3.memory_percent ≠
        recC3.memory_mb * 1048576 / (stC3.total_memory : ℚ) * 100 := by
  refine ⟨runCycle_stC3_eval, rfl, ?_, ?_⟩
  · show (3:ℚ)/2 * 1048576 / ((1073741824 : ℕ) : ℚ) * 100 = 75/512
    norm_num
  · show (1:ℚ)/10 ≠ 3/2 * 1048576 / ((1073741824 : ℕ) : ℚ) * 100
    norm_num

/-- Claim C3 (amended): for every record produced by one sampling cycle,
`memory_percent` is the raw `rss / total_memory * 100` rounded to one
decimal and `memory_mb` is the raw `rss / 1048576` rounded to one decimal
(so the spec's equation holds only up to these roundings, not exactly), and
the total physical memory value is captured once at startup
(`DataFetcher.__init__`) and left unchanged by every cycle. -/
theorem memory_percent_from_raw_rss (st : FetcherState)
    (inputs : List ProcInput) (r : ProcRecord)
    (hr : r ∈ (runCycle st inputs).1) :
    (∃ inp ∈ inputs, r.pid = inp.pid
      ∧ r.memory_mb = pyRound1 ((inp.rss : ℚ) / 1048576)
      ∧ r.memory_percent =
          pyRound1 ((inp.rss : ℚ) / (st.total_memory : ℚ) * 100))
    ∧ (runCycle st inputs).2.total_memory = st.total_memory
    ∧ ∀ tm : Nat, (initFetcher tm).total_memory = tm := by
  refine ⟨?_, runCycle_total st inputs, fun _ => rfl⟩
  rw [runCycle_mem] at hr
  obtain ⟨inp, hmem, c', hre⟩ := runProcs_mem_weak _ _ _ _ _ _ hr
  subst hre
  exact ⟨inp, hmem, rfl, rfl, rfl⟩

/-- Claim C3 witness: the amended statement evaluated on the concrete
cycle `stC3` / `inpC3`. -/
theorem memory_percent_from_raw_rss_witness :
    (∃ inp ∈ [inpC3], recC3.pid = inp.pid
      ∧ recC3.memory_mb = pyRound1 ((inp.rss : ℚ) / 1048576)
      ∧ recC3.memory_percent =
          pyRound1 ((inp.rss : ℚ) / (stC3.total_memory : ℚ) * 100))
    ∧ (runCycle stC3 [inpC3]).2.total_memory = stC3.total_memory
    ∧ ∀ tm : Nat, (initFetcher tm).total_memory = tm :=
  memory_percent_from_raw_rss stC3 [inpC3] recC3
    (by rw [runCycle_stC3_eval]; exact List.mem_singleton.mpr rfl)

/-- Claim C5: a record whose (rounded) resident memory is at most the 50 MB
threshold always reports `disk_io_mb = 0`, whatever the I/O counters say;
above the threshold the reported value is the measured
`(read_bytes + write_bytes) / 1048576` rounded to one decimal, with
counter errors (`AccessDenied` / missing counters) also yielding `0`. -/
theorem disk_io_threshold_behavior (st : FetcherState)
    (inputs : List ProcInput) (r : ProcRecord)
    (hr : r ∈ (runCycle st inputs).1) :
    ∃ inp ∈ inputs, r.pid = inp.pid
      ∧ (r.memory_mb ≤ disk_io_threshold_mb → r.disk_io_mb = 0)
      ∧ (disk_io_threshold_mb < r.memory_mb →
          r.disk_io_mb = match inp.ioBytes with
            | some rw => pyRound1 (((rw.1 : ℚ) + (rw.2 : ℚ)) / 1048576)
            | none => 0) := by
  rw [runCycle_mem] at hr
  obtain ⟨inp, hmem, c', hre⟩ := runProcs_mem_weak _ _ _ _ _ _ hr
  subst hre
  have hmm : (procStep (decide (st.cpu_sample_counter = 0)) st.cpu_initialized
      st.total_memory c' inp).1.memory_mb =
      pyRound1 ((inp.rss : ℚ) / 1048576) := rfl
  have hdisk : (procStep (decide (st.cpu_sample_counter = 0))
      st.cpu_initialized st.total_memory c' inp).1.disk_io_mb =
      if disk_io_threshold_mb < pyRound1 ((inp.rss : ℚ) / 1048576) then
        (match inp.ioBytes with
          | some rw => pyRound1 (((rw.1 : ℚ) + (rw.2 : ℚ)) / 1048576)
          | none => 0)
      else 0 := rfl
  refine ⟨inp, hmem, rfl, ?_, ?_⟩
  · intro hle
    rw [hmm] at hle
    rw [hdisk, if_neg (not_lt.mpr hle)]
  · intro hlt
    rw [hmm] at hlt
    rw [hdisk, if_pos hlt]

/-- Claim C5 witness: the theorem evaluated on the concrete cycle
`stC3` / `inpC3`, whose record sits below the threshold. -/
theorem disk_io_threshold_behavior_witness :
    ∃ inp ∈ [inpC3], recC3.pid = inp.pid
      ∧ (recC3.memory_mb ≤ disk_io_threshold_mb → recC3.disk_io_mb = 0)
      ∧ (disk_io_threshold_mb < recC3.memory_mb →
          recC3.disk_io_mb = match inp.ioBytes with
            | some rw => pyRound1 (((rw.1 : ℚ) + (rw.2 : ℚ)) / 1048576)
            | none => 0) :=
  disk_io_threshold_behavior stC3 [inpC3] recC3
    (by rw [runCycle_stC3_eval]; exact List.mem_singleton.mpr rfl)

/-- On a CPU sample cycle, a successfully measured process's entry in the
pruned end-of-cycle cache is the measured value (after warm-up) or `0`
(during warm-up). -/
theorem runCycle_cacheGet_sample (st : FetcherState) (inputs : List ProcInput)
    (inp : ProcInput) (v : ℚ) (hn : (inputs.map (·.pid)).Nodup)
    (hm : inp ∈ inputs) (hv : inp.cpuMeasure = some v)
    (h0 : st.cpu_sample_counter = 0) :
    cacheGet (runCycle st inputs).2.process_cache inp.pid =
      some (if st.cpu_initialized then v else 0) := by
  have hds : decide (st.cpu_sample_counter = 0) = true := by simp [h0]
  rw [runCycle_cache, hds]
  have hcont : ((runProcs true st.cpu_initialized st.total_memory
      st.process_cache inputs).1.map (·.pid)).contains inp.pid = true := by
    rw [runProcs_map_pid]
    exact List.elem_eq_true_of_mem (List.mem_map_of_mem _ hm)
  rw [cacheGet_filter_mem _ _ _ hcont]
  exact runProcs_cache_sample st.cpu_initialized st.total_memory
    st.process_cache inputs inp v hn hm hv

/-- Claim C4: the CPU duty cycle.  For every record of a cycle with distinct
pids: on the very first CPU sample cycle (counter 0, warm-up not done) the
reported CPU percent is `0` and a measured process merely gets its cache
entry initialised to `0`; on later sample cycles the reported value is the
fresh delta measurement (rounded to one decimal) and the raw measurement is
stored in the cache; on non-sample cycles the reported value is the last
cached value (default `0`), rounded to one decimal. -/
theorem cpu_duty_cycle (st : FetcherState) (inputs : List ProcInput)
    (hn : (inputs.map (·.pid)).Nodup) (r : ProcRecord)
    (hr : r ∈ (runCycle st inputs).1) :
    ∃ inp ∈ inputs, r.pid = inp.pid
      ∧ (st.cpu_sample_counter = 0 → st.cpu_initialized = false →
          r.cpu_percent = 0
          ∧ ∀ v, inp.cpuMeasure = some v →
              cacheGet (runCycle st inputs).2.process_cache inp.pid = some 0)
      ∧ (st.cpu_sample_counter = 0 → st.cpu_initialized = true →
          ∀ v, inp.cpuMeasure = some v →
            r.cpu_percent = pyRound1 v
            ∧ cacheGet (runCycle st inputs).2.process_cache inp.pid = some v)
      ∧ (st.cpu_sample_counter ≠ 0 →
          r.cpu_percent =
            pyRound1 ((cacheGet st.process_cache inp.pid).getD 0)) := by
  have hr' := (runCycle_mem st inputs r).mp hr
  obtain ⟨inp, hmem, c', hc', hre⟩ := runProcs_mem_nodup _ _ _ _ _ _ hn hr'
  subst hre
  refine ⟨inp, hmem, rfl, ?_, ?_, ?_⟩
  · intro h0 hinit
    have hds : decide (st.cpu_sample_counter = 0) = true := by simp [h0]
    constructor
    · rw [hds, hinit]
      cases hcpu : inp.cpuMeasure <;>
        simp [procStep, hcpu, pyRound1_zero]
    · intro v hv
      have h := runCycle_cacheGet_sample st inputs inp v hn hmem hv h0
      rw [hinit] at h
      simpa using h
  · intro h0 hinit
    intro v hv
    have hds : decide (st.cpu_sample_counter = 0) = true := by simp [h0]
    constructor
    · rw [hds, hinit]
      simp [procStep, hv]
    · have h := runCycle_cacheGet_sample st inputs inp v hn hmem hv h0
      rw [hinit] at h
      simpa using h
  · intro hne
    have hds : decide (st.cpu_sample_counter = 0) = false := by simp [hne]
    rw [hds]
    simp [procStep, hc']

/-- A fresh fetcher on a 1 GiB machine: the very first cycle is the CPU
warm-up sample cycle. -/
def stC4 : FetcherState := initFetcher 1073741824

/-- A concrete enumerated process with a successful CPU measurement. -/
def inpC4 : ProcInput :=
  { pid := 2
    name := "bash"
    usernameRaw := some "alice"
    rss := 1048576
    cpuMeasure := some 7
    ioBytes := none }

/-- The record the warm-up cycle produces for `inpC4`. -/
def recC4 : ProcRecord :=
  { pid := 2
    name := "bash"
    username := "alice"
    cpu_percent := 0
    memory_mb := 1
    memory_percent := 1/10
    disk_io_mb := 0 }

theorem pyRound1_mbC4 : pyRound1 ((1048576 : ℚ) / 1048576) = 1 := by
  have h := pyRound1_low ((1048576 : ℚ) / 1048576) 10 (by norm_num) (by norm_num)
  rw [h]
  norm_num

theorem pyRound1_pctC4 :
    pyRound1 ((1048576 : ℚ) / 1073741824 * 100) = 1/10 := by
  have h := pyRound1_high ((1048576 : ℚ) / 1073741824 * 100) 0 (by norm_num)
    (by norm_num)
  rw [h]
  norm_num

/-- Evaluation of the warm-up sampling cycle on `stC4` / `inpC4`. -/
theorem runCycle_stC4_eval : (runCycle stC4 [inpC4]).1 = [recC4] := by
  rw [runCycle_fst]
  have h1 : decide (stC4.cpu_sample_counter = 0) = true := by rfl
  rw [h1]
  show [(procStep true stC4.cpu_initialized stC4.total_memory
    stC4.process_cache inpC4).1] = [recC4]
  unfold procStep
  simp only [stC4, initFetcher, inpC4, recC4]
  rw [List.cons_eq_cons]
  refine ⟨?_, rfl⟩
  rw [ProcRecord.mk.injEq]
  refine ⟨rfl, by rfl, by rfl, ?_, ?_, ?_, ?_⟩
  · exact pyRound1_zero
  · push_cast
    exact pyRound1_mbC4
  · push_cast
    exact pyRound1_pctC4
  · rw [if_neg]
    push_cast
    rw [pyRound1_mbC4]
    unfold disk_io_threshold_mb
    norm_num

/-- Claim C4 witness: the duty-cycle theorem evaluated on the concrete
warm-up cycle `stC4` / `inpC4`. -/
theorem cpu_duty_cycle_witness :
    ∃ inp ∈ [inpC4], recC4.pid = inp.pid
      ∧ (stC4.cpu_sample_counter = 0 → stC4.cpu_initialized = false →
          recC4.cpu_percent = 0
          ∧ ∀ v, inp.cpuMeasure = some v →
              cacheGet (runCycle stC4 [inpC4]).2.process_cache inp.pid
                = some 0)
      ∧ (stC4.cpu_sample_counter = 0 → stC4.cpu_initialized = true →
          ∀ v, inp.cpuMeasure = some v →
            recC4.cpu_percent = pyRound1 v
            ∧ cacheGet (runCycle stC4 [inpC4]).2.process_cache inp.pid
                = some v)
      ∧ (stC4.cpu_sample_counter ≠ 0 →
          recC4.cpu_percent =
            pyRound1 ((cacheGet stC4.process_cache inp.pid).getD 0)) :=
  cpu_duty_cycle stC4 [inpC4] (by decide) recC4
    (by rw [runCycle_stC4_eval]; exact List.mem_singleton.mpr rfl)

/-! ### Claim C6: the system-process predicate -/

/-- ASCII lower-casing never produces a backslash. -/
theorem toLower_eq_backslash (c : Char) (h : c.toLower = '\\') : c = '\\' := by
  unfold Char.toLower at h
  by_cases hc : c.toNat ≥ 65 ∧ c.toNat ≤ 90
  · rw [if_pos hc] at h
    exfalso
    have h92 : (Char.ofNat (c.toNat + 32)).toNat = ('\\').toNat := by rw [h]
    have hb : ('\\').toNat = 92 := by decide
    have hv : (c.toNat + 32).isValidChar := Or.inl (by omega)
    have hval : (Char.ofNat (c.toNat + 32)).toNat = c.toNat + 32 := by
      rw [Char.ofNat, dif_pos hv]
      simp [Char.ofNatAux, Char.toNat, UInt32.toNat, BitVec.toNat_ofNatLt]
    omega
  · rwa [if_neg hc] at h

theorem takeWhile_eq_self_of_all {α : Type} (p : α → Bool) (l : List α)
    (h : ∀ x ∈ l, p x = true) : l.takeWhile p = l := by
  induction l with
  | nil => rfl
  | cons a t ih =>
    rw [List.takeWhile_cons, h a (List.mem_cons_self a t),
      ih (fun x hx => h x (List.mem_cons_of_mem a hx))]
    exact if_pos rfl

/-- Stripping the domain qualifier from a backslash-free string is the
identity. -/
theorem afterLastBackslash_of_not_mem (l : List Char) (h : '\\' ∉ l) :
    afterLastBackslash l = l := by
  unfold afterLastBackslash
  rw [takeWhile_eq_self_of_all _ _ ?_, List.reverse_reverse]
  intro x hx
  simp only [decide_eq_true_eq]
  intro hcontra
  exact h (hcontra ▸ List.mem_reverse.mp hx)

/-- Lower-casing preserves backslash-freeness. -/
theorem pyLower_no_backslash (s : String) (h : '\\' ∉ s.data) :
    '\\' ∉ (pyLower s).data := by
  intro hmem
  simp only [pyLower] at hmem
  obtain ⟨c, hc, hlc⟩ := List.mem_map.mp hmem
  exact h ((toLower_eq_backslash c hlc) ▸ hc)

/-- The spec's account set with the domain qualifiers stripped: root,
system, local system, and the two OS service accounts. -/
def system_accounts_stripped : List String :=
  ["root", "system", "local system", "localservice", "networkservice"]

/-- On backslash-free user names, membership in the source's
`system_users` set coincides with membership in the stripped account set
(the three `nt authority\\…` entries can never match). -/
theorem mem_system_users_iff (u : String) (hnb : '\\' ∉ u.data) :
    u ∈ system_users ↔ u ∈ system_accounts_stripped := by
  constructor
  · intro h
    rcases (by simpa [system_users] using h : u = "root" ∨ u = "system"
      ∨ u = "local system" ∨ u = "nt authority\\system"
      ∨ u = "nt authority\\localservice" ∨ u = "nt authority\\networkservice"
      ∨ u = "localservice" ∨ u = "networkservice") with
      rfl | rfl | rfl | rfl | rfl | rfl | rfl | rfl
    · simp [system_accounts_stripped]
    · simp [system_accounts_stripped]
    · simp [system_accounts_stripped]
    · exact absurd (by decide) hnb
    · exact absurd (by decide) hnb
    · exact absurd (by decide) hnb
    · simp [system_accounts_stripped]
    · simp [system_accounts_stripped]
  · intro h
    rcases (by simpa [system_accounts_stripped] using h : u = "root"
      ∨ u = "system" ∨ u = "local system" ∨ u = "localservice"
      ∨ u = "networkservice") with rfl | rfl | rfl | rfl | rfl <;>
      simp [system_users]

/-- The example process of the spec: owned by `root`, pid 500. -/
def rootProc : ProcRecord :=
  { pid := 500
    name := "daemon"
    username := "root"
    cpu_percent := 0
    memory_mb := 10
    memory_percent := 1
    disk_io_mb := 0 }

/-- Claim C6: for records whose username carries no domain qualifier (as
holds for every sampler-produced record), `is_system_process` is true
exactly when the pid is in {0,1,2} or the lower-cased, domain-stripped
user name is one of the known system accounts; in particular the
`root`-owned pid-500 process is classified as system, is excluded from the
filtered view whenever hide-system is enabled, and is included when it is
disabled. -/
theorem system_process_predicate (p : ProcRecord)
    (hnb : '\\' ∉ p.username.data) :
    (is_system_process p = true ↔
      (p.pid = 0 ∨ p.pid = 1 ∨ p.pid = 2 ∨
        pyLower (String.mk (afterLastBackslash p.username.data)) ∈
          system_accounts_stripped))
    ∧ is_system_process rootProc = true
    ∧ (∀ (procs : List ProcRecord) (hideInaccessible : Bool)
        (searchRaw : String) (inacc : ProcRecord → Bool),
        rootProc ∉
          (apply_search_filter procs true hideInaccessible searchRaw inacc).1)
    ∧ rootProc ∈
        (apply_search_filter [rootProc] false false "" (fun _ => false)).1 := by
  refine ⟨?_, by decide, ?_, ?_⟩
  · have hstrip : String.mk (afterLastBackslash p.username.data) = p.username := by
      rw [afterLastBackslash_of_not_mem _ hnb]
    rw [hstrip]
    unfold is_system_process
    by_cases hpid : p.pid = 0 ∨ p.pid = 1 ∨ p.pid = 2
    · rw [if_pos hpid]
      constructor
      · intro _
        rcases hpid with h | h | h
        · exact Or.inl h
        · exact Or.inr (Or.inl h)
        · exact Or.inr (Or.inr (Or.inl h))
      · intro _
        rfl
    · rw [if_neg hpid]
      have hmem := mem_system_users_iff (pyLower p.username)
        (pyLower_no_backslash p.username hnb)
      constructor
      · intro h
        by_cases hc : system_users.contains (pyLower p.username) = true
        · exact Or.inr (Or.inr (Or.inr (hmem.mp (List.mem_of_elem_eq_true hc))))
        · rw [if_neg (by simpa using hc)] at h
          exact absurd h (by simp)
      · intro h
        rcases h with h | h | h | h
        · exact absurd (Or.inl h) hpid
        · exact absurd (Or.inr (Or.inl h)) hpid
        · exact absurd (Or.inr (Or.inr h)) hpid
        · rw [if_pos (List.elem_eq_true_of_mem (hmem.mpr h))]
  · intro procs hideInaccessible searchRaw inacc hmem
    have hsub : (apply_search_filter procs true hideInaccessible searchRaw
        inacc).1.Sublist (systemFilterStep true procs) :=
      (searchFilterStep_sublist _ _).trans
        (inaccessibleFilterStep_sublist _ _ _)
    have hmem' := hsub.subset hmem
    unfold systemFilterStep at hmem'
    rw [if_pos rfl] at hmem'
    have := (List.mem_filter.mp hmem').2
    simp only [decide_eq_true_eq] at this
    exact this (by decide)
  · exact List.mem_singleton.mpr rfl

/-- Claim C6 witness: the predicate characterisation evaluated at the
concrete `root`-owned pid-500 process. -/
theorem system_process_predicate_witness :
    (is_system_process rootProc = true ↔
      (rootProc.pid = 0 ∨ rootProc.pid = 1 ∨ rootProc.pid = 2 ∨
        pyLower (String.mk (afterLastBackslash rootProc.username.data)) ∈
          system_accounts_stripped))
    ∧ is_system_process rootProc = true
    ∧ (∀ (procs : List ProcRecord) (hideInaccessible : Bool)
        (searchRaw : String) (inacc : ProcRecord → Bool),
        rootProc ∉
          (apply_search_filter procs true hideInaccessible searchRaw inacc).1)
    ∧ rootProc ∈
        (apply_search_filter [rootProc] false false "" (fun _ => false)).1 :=
  system_process_predicate rootProc (by decide)

/-! ## Batch process termination (`TaskManagerGUI.kill_processes`) -/

/-- The outcome of `psutil.Process(pid).terminate()` for one target, as the
source's `try`/`except` ladder distinguishes them. -/
inductive KillOutcome where
  | success
  | noSuchProcess
  | accessDenied
  | otherError (msg : String)
deriving DecidableEq, Repr

/-- The `f"{name} (PID: {pid})"` label built for each target. -/
def killLabel (pid : Int) (name : String) : String :=
  name ++ " (PID: " ++ toString pid ++ ")"

/-- The three outcome buckets accumulated by `kill_processes`. -/
structure KillResult where
  terminated : List String
  access_denied : List String
  failed : List String
deriving DecidableEq, Repr

/-- `TaskManagerGUI.kill_processes`: iterate over all targets (insertion
order of the pid→name dict), classifying each terminate call's outcome;
`NoSuchProcess` is silently skipped; no outcome interrupts the loop. -/
def kill_processes :
    List (Int × String) → (Int → KillOutcome) → KillResult
  | [], _ => ⟨[], [], []⟩
  | t :: rest, outcome =>
    let r := kill_processes rest outcome
    match outcome t.1 with
    | .success => { r with terminated := killLabel t.1 t.2 :: r.terminated }
    | .noSuchProcess => r
    | .accessDenied =>
        { r with access_denied := killLabel t.1 t.2 :: r.access_denied }
    | .otherError m =>
        { r with failed := (killLabel t.1 t.2 ++ ": " ++ m) :: r.failed }

/-- The example batch of the spec: one vanished pid, one access-denied pid,
one pid that terminates. -/
def killTargets : List (Int × String) := [(10, "a"), (11, "b"), (12, "c")]

/-- Terminate outcomes for `killTargets`. -/
def killOutcomes : Int → KillOutcome := fun pid =>
  if pid = 10 then KillOutcome.noSuchProcess
  else if pid = 11 then KillOutcome.accessDenied
  else KillOutcome.success

/-- Claim C7: the batch terminate walks every target and classifies each
outcome into exactly one bucket — terminated, access-denied, failed-other —
with no-longer-exists silently dropped; one target's failure never aborts
the rest (every target is classified), the classification is total (no
exception escapes: `kill_processes` is a total function), and the spec's
3-pid example yields 1 terminated, 1 access-denied, 0 failed-other. -/
theorem kill_processes_classification (targets : List (Int × String))
    (outcome : Int → KillOutcome) :
    (kill_processes targets outcome).terminated =
      targets.filterMap (fun t => match outcome t.1 with
        | .success => some (killLabel t.1 t.2)
        | _ => none)
    ∧ (kill_processes targets outcome).access_denied =
      targets.filterMap (fun t => match outcome t.1 with
        | .accessDenied => some (killLabel t.1 t.2)
        | _ => none)
    ∧ (kill_processes targets outcome).failed =
      targets.filterMap (fun t => match outcome t.1 with
        | .otherError m => some (killLabel t.1 t.2 ++ ": " ++ m)
        | _ => none)
    ∧ (kill_processes targets outcome).terminated.length
      + (kill_processes targets outcome).access_denied.length
      + (kill_processes targets outcome).failed.length
      + (targets.filter
          (fun t => outcome t.1 = KillOutcome.noSuchProcess)).length
      = targets.length
    ∧ (kill_processes killTargets killOutcomes).terminated.length = 1
    ∧ (kill_processes killTargets killOutcomes).access_denied.length = 1
    ∧ (kill_processes killTargets killOutcomes).failed.length = 0 := by
  refine ⟨?_, ?_, ?_, ?_, rfl, rfl, rfl⟩
  · induction targets with
    | nil => rfl
    | cons t rest ih =>
      rw [kill_processes, List.filterMap_cons]
      cases houtcome : outcome t.1 <;> simp [houtcome, ih]
  · induction targets with
    | nil => rfl
    | cons t rest ih =>
      rw [kill_processes, List.filterMap_cons]
      cases houtcome : outcome t.1 <;> simp [houtcome, ih]
  · induction targets with
    | nil => rfl
    | cons t rest ih =>
      rw [kill_processes, List.filterMap_cons]
      cases houtcome : outcome t.1 <;> simp [houtcome, ih]
  · induction targets with
    | nil => rfl
    | cons t rest ih =>
      cases houtcome : outcome t.1 <;>
        simp [kill_processes, List.filter_cons, houtcome] <;> omega

/-! ## UI-side state (`TaskManagerGUI`): cache, coalescer and status bar -/

/-- The `TaskManagerGUI` fields the data/render pipeline reads and writes.
Timers themselves live outside the model; what matters here is the data they
carry. -/
structure UIState where
  cached_processes : List ProcRecord
  last_mem_info : Option MemInfo
  last_rendered : Option (List ProcRecord)
  user_scrolling : Bool
  hide_system : Bool
  hide_inaccessible : Bool
  search_text : String
  pending_render_mem_info : Option MemInfo
  pending_render_processes : Option (List ProcRecord)
  pending_total_processes : Nat
deriving Repr

/-- First heuristic of `_is_significant_change`: used-memory percent moved
by at least 0.5 against `self._last_mem_info`. -/
def memDeltaCheck (lastMem : Option MemInfo) (mem : MemInfo) : Bool :=
  match lastMem with
  | some lm => decide ((1 : ℚ)/2 ≤ |mem.percent - lm.percent|)
  | none => false

/-- The pids of the first three rows (the list is sorted descending by
memory, so these are the top-3 processes by memory). -/
def topPids (procs : List ProcRecord) : List Int :=
  (procs.take 3).map (·.pid)

/-- Second heuristic of `_is_significant_change`: the top-3 pid set changed
(both tuples must be nonempty, as in the source's `new_top and old_top`). -/
def topPidsCheck (lastRendered : Option (List ProcRecord))
    (procs : List ProcRecord) : Bool :=
  let newTop := topPids procs
  let oldTop := topPids (lastRendered.getD [])
  !newTop.isEmpty && !oldTop.isEmpty &&
    decide (newTop.toFinset ≠ oldTop.toFinset)

/-- Third heuristic of `_is_significant_change`: the row count moved by
more than 3 against `self._last_rendered`. -/
def countDeltaCheck (lastRendered : Option (List ProcRecord))
    (procs : List ProcRecord) : Bool :=
  match lastRendered with
  | some lr => decide (3 < |(procs.length : ℤ) - (lr.length : ℤ)|)
  | none => false

/-- `TaskManagerGUI._is_significant_change`, as a function of the state it
reads (`_last_mem_info`, `_last_rendered`) and the incoming snapshot. -/
def is_significant_change (lastMem : Option MemInfo)
    (lastRendered : Option (List ProcRecord)) (mem : MemInfo)
    (procs : List ProcRecord) : Bool :=
  memDeltaCheck lastMem mem || topPidsCheck lastRendered procs
    || countDeltaCheck lastRendered procs

/-- `TaskManagerGUI.on_data_ready`: caches the snapshot (overwriting
`_last_mem_info` and `_cached_processes` first), then asks
`_is_significant_change`, then applies the filters to schedule the pending
render.  Returns the new state and whether the immediate-render path
(`QTimer.singleShot(0, ...)`) is taken. -/
def on_data_ready (st : UIState) (mem : MemInfo)
    (processes : List ProcRecord) (inacc : ProcRecord → Bool) :
    UIState × Bool :=
  let st1 := { st with cached_processes := processes
                       last_mem_info := some mem }
  let immediate := !st1.user_scrolling &&
    is_significant_change st1.last_mem_info st1.last_rendered mem processes
  let filtered := apply_search_filter st1.cached_processes st1.hide_system
    st1.hide_inaccessible st1.search_text inacc
  let st2 := { st1 with pending_render_mem_info := st1.last_mem_info
                        pending_render_processes := some filtered.1
                        pending_total_processes := filtered.2 }
  (st2, immediate)

/-- A rendered snapshot at 10.0 percent used memory. -/
def memC8old : MemInfo := { total := 16, used := 2, available := 14, percent := 10 }

/-- An incoming snapshot at 20.0 percent used memory. -/
def memC8new : MemInfo := { total := 16, used := 4, available := 12, percent := 20 }

/-- Three rows with pids 1, 2, 3. -/
def rowsC8 : List ProcRecord :=
  [{ pid := 1, name := "a", username := "u", cpu_percent := 0,
     memory_mb := 30, memory_percent := 3, disk_io_mb := 0 },
   { pid := 2, name := "b", username := "u", cpu_percent := 0,
     memory_mb := 20, memory_percent := 2, disk_io_mb := 0 },
   { pid := 3, name := "c", username := "u", cpu_percent := 0,
     memory_mb := 10, memory_percent := 1, disk_io_mb := 0 }]

/-- UI state that has rendered `rowsC8` at 10.0 percent used memory, with an
idle (non-scrolling) user and no filters. -/
def stC8 : UIState :=
  { cached_processes := rowsC8
    last_mem_info := some memC8old
    last_rendered := some rowsC8
    user_scrolling := false
    hide_system := false
    hide_inaccessible := false
    search_text := ""
    pending_render_mem_info := none
    pending_render_processes := none
    pending_total_processes := 0 }

theorem memDeltaCheck_self (m : MemInfo) : memDeltaCheck (some m) m = false := by
  unfold memDeltaCheck
  apply decide_eq_false
  norm_num

theorem topPidsCheck_rowsC8 : topPidsCheck (some rowsC8) rowsC8 = false := by
  simp [topPidsCheck, topPids, rowsC8]

theorem countDeltaCheck_rowsC8 : countDeltaCheck (some rowsC8) rowsC8 = false := by
  unfold countDeltaCheck
  apply decide_eq_false
  norm_num

/-- Claim C8: `on_data_ready` stores the incoming `mem_info` into
`_last_mem_info` *before* `_is_significant_change` reads it, so the
memory-percent heuristic compares the new snapshot with itself and can
never fire, contradicting the function's own docstring ("Memory percent
changed by >= 0.5").  Concretely: with 10.0 percent rendered, an incoming
20.0 percent snapshot with identical top-3 pids and row count is
"significant" by the documented heuristics (delta 10 ≥ 0.5) and the user is
not scrolling, yet the immediate-render path is not taken. -/
theorem on_data_ready_memory_delta_dead :
    stC8.user_scrolling = false
    ∧ memC8new.percent - memC8old.percent = 10
    ∧ (1 : ℚ)/2 ≤ |memC8new.percent - memC8old.percent|
    ∧ is_significant_change (some memC8old) (some rowsC8) memC8new rowsC8 = true
    ∧ (on_data_ready stC8 memC8new rowsC8 (fun _ => false)).2 = false := by
  refine ⟨rfl, by norm_num [memC8new, memC8old], by norm_num [memC8new, memC8old],
    ?_, ?_⟩
  · unfold is_significant_change
    have h : memDeltaCheck (some memC8old) memC8new = true := by
      unfold memDeltaCheck
      apply decide_eq_true
      norm_num [memC8new, memC8old]
    rw [h, Bool.true_or, Bool.true_or]
  · show (!stC8.user_scrolling &&
      is_significant_change (some memC8new) stC8.last_rendered memC8new
        rowsC8) = false
    have hlr : stC8.last_rendered = some rowsC8 := rfl
    rw [hlr]
    unfold is_significant_change
    rw [memDeltaCheck_self, topPidsCheck_rowsC8, countDeltaCheck_rowsC8]
    rfl

/-! ### The coalesced flush (`TaskManagerGUI._flush_ui_update`) -/

/-- Line 3151: `self._pending_render_mem_info or self._last_mem_info`
(a `mem_info` dict always has four keys, so a present value is never
falsy). -/
def flush_choose_mem (pending last : Option MemInfo) : Option MemInfo :=
  match pending with
  | some m => some m
  | none => last

/-- Line 3152: `self._pending_render_processes or list(self._cached_processes)`
— Python `or` treats both `None` and the empty list as falsy. -/
def flush_choose_processes (pending : Option (List ProcRecord))
    (cached : List ProcRecord) : List ProcRecord :=
  match pending with
  | some l => if l.isEmpty then cached else l
  | none => cached

/-- Line 3153: `self._pending_total_processes or len(self._cached_processes)`
— `0` is falsy. -/
def flush_choose_total (pendingTotal : Nat) (cached : List ProcRecord) : Nat :=
  if pendingTotal = 0 then cached.length else pendingTotal

/-- The (mem, rows, total) triple `_flush_ui_update` passes to
`_render_process_list`. -/
def flush_ui_update_choice (st : UIState) :
    Option MemInfo × List ProcRecord × Nat :=
  (flush_choose_mem st.pending_render_mem_info st.last_mem_info,
   flush_choose_processes st.pending_render_processes st.cached_processes,
   flush_choose_total st.pending_total_processes st.cached_processes)

/-- Claim C9: when the pending filtered row set is the empty list — in
particular when the active filter combination matches zero processes — the
coalesced flush substitutes the full cached unfiltered list, and a pending
total of 0 is likewise replaced by the full cached count. -/
theorem flush_substitutes_cached (pending : Option (List ProcRecord))
    (cached : List ProcRecord) (total : Nat) (hs hi : Bool) (s : String)
    (inacc : ProcRecord → Bool)
    (hpend : pending = some (apply_search_filter cached hs hi s inacc).1)
    (hempty : (apply_search_filter cached hs hi s inacc).1 = [])
    (htotal : total = 0) :
    flush_choose_processes pending cached = cached
    ∧ flush_choose_total total cached = cached.length := by
  subst hpend
  subst htotal
  rw [hempty]
  exact ⟨rfl, rfl⟩

/-- Claim C9 witness: a search text matching no process name makes the
filter output empty, and the flush then renders the full cached list. -/
theorem flush_substitutes_cached_witness :
    flush_choose_processes
        (some (apply_search_filter [rootProc] false false "zzz"
          (fun _ => false)).1) [rootProc] = [rootProc]
    ∧ flush_choose_total 0 [rootProc] = [rootProc].length :=
  flush_substitutes_cached _ [rootProc] 0 false false "zzz" (fun _ => false)
    rfl rfl rfl

/-! ### The status bar (`_render_process_list`, lines 3142-3147) -/

/-- The status line shown when a hide checkbox is active: time, filtered
("Showing") count and pre-filter total. -/
def status_message_with_filter (t : String) (shown total : Nat) : String :=
  "Ready - Last updated: " ++ t ++ " | Showing: " ++ toString shown
    ++ " / Total Processes: " ++ toString total

/-- The status line shown otherwise: time and pre-filter total only. -/
def status_message_plain (t : String) (total : Nat) : String :=
  "Ready - Last updated: " ++ t ++ " | Total Processes: " ++ toString total

/-- The status-bar update at the end of `_render_process_list`: the branch
condition reads only the two hide checkboxes; the search text, although part
of the UI state, is not consulted. -/
def render_status (t : String) (shown total : Nat)
    (hideSystem hideInaccessible : Bool) (searchText : String) : String :=
  if hideSystem || hideInaccessible then
    status_message_with_filter t shown total
  else
    status_message_plain t total

/-- Claim C2 counterexample: with both hide checkboxes off and the nonempty
search text "chrome" active (2 of 10 rows shown), the rendered status is
the plain variant: it does not contain the filtered count marker
"Showing:", contradicting "whenever any filter is active, including a
non-empty search text alone, the filtered count is shown". -/
theorem status_omits_count_under_search_cex :
    ("chrome" : String) ≠ ""
    ∧ render_status "12:00:00" 2 10 false false "chrome" =
        "Ready - Last updated: 12:00:00 | Total Processes: 10"
    ∧ listContainsSub "Showing:".data
        (render_status "12:00:00" 2 10 false false "chrome").data = false
    ∧ render_status "12:00:00" 2 10 false false "chrome" ≠
        status_message_with_filter "12:00:00" 2 10 := by
  refine ⟨by decide, by decide, by decide, by decide⟩

/-- Claim C2 (amended): the status always contains the current time and the
total pre-filter count; the filtered ("Showing") count appears exactly when
at least one hide checkbox is set — the search text never influences the
status format (the source's branch reads only the checkboxes). -/
theorem status_count_iff_hide_flags (t : String) (shown total : Nat)
    (hs hi : Bool) (s1 s2 : String) :
    render_status t shown total hs hi s1 = render_status t shown total hs hi s2
    ∧ render_status t shown total true hi s1 =
        status_message_with_filter t shown total
    ∧ render_status t shown total hs true s1 =
        status_message_with_filter t shown total
    ∧ render_status t shown total false false s1 = status_message_plain t total
    ∧ (∃ a b, render_status t shown total hs hi s1 = a ++ t ++ b)
    ∧ (∃ a b, render_status t shown total hs hi s1 = a ++ toString total ++ b) := by
  refine ⟨rfl, rfl, by cases hs <;> rfl, rfl, ?_, ?_⟩
  · cases hs <;> cases hi
    · exact ⟨"Ready - Last updated: ",
        " | Total Processes: " ++ toString total, by
          simp [render_status, status_message_plain, String.append_assoc]⟩
    · exact ⟨"Ready - Last updated: ",
        " | Showing: " ++ toString shown ++ " / Total Processes: "
          ++ toString total, by
          simp [render_status, status_message_with_filter, String.append_assoc]⟩
    · exact ⟨"Ready - Last updated: ",
        " | Showing: " ++ toString shown ++ " / Total Processes: "
          ++ toString total, by
          simp [render_status, status_message_with_filter, String.append_assoc]⟩
    · exact ⟨"Ready - Last updated: ",
        " | Showing: " ++ toString shown ++ " / Total Processes: "
          ++ toString total, by
          simp [render_status, status_message_with_filter, String.append_assoc]⟩
  · cases hs <;> cases hi
    · exact ⟨"Ready - Last updated: " ++ t ++ " | Total Processes: ", "", by
        simp [render_status, status_message_plain, String.append_assoc,
          String.append_empty]⟩
    · exact ⟨"Ready - Last updated: " ++ t ++ " | Showing: "
          ++ toString shown ++ " / Total Processes: ", "", by
        simp [render_status, status_message_with_filter, String.append_assoc,
          String.append_empty]⟩
    · exact ⟨"Ready - Last updated: " ++ t ++ " | Showing: "
          ++ toString shown ++ " / Total Processes: ", "", by
        simp [render_status, status_message_with_filter, String.append_assoc,
          String.append_empty]⟩
    · exact ⟨"Ready - Last updated: " ++ t ++ " | Showing: "
          ++ toString shown ++ " / Total Processes: ", "", by
        simp [render_status, status_message_with_filter, String.append_assoc,
          String.append_empty]⟩

/-! ### The CPU cell (`_render_process_list` line 3010 and `_bg_fill_step`
line 3346) -/

/-- The value the synchronous render path feeds to the CPU cell:
`max(0.01, proc.get('cpu_percent', 0.0))`. -/
def render_cpu_cell_value (p : ProcRecord) : ℚ :=
  max (1/100) p.cpu_percent

/-- The same expression in the background off-screen filler. -/
def bg_fill_cpu_cell_value (p : ProcRecord) : ℚ :=
  max (1/100) p.cpu_percent

/-- Claim C10 counterexample: for a record with `cpu_percent = 0` the
clamped cell value is `0.01`, but the cell text is produced with
`f"{cpu_value:.1f}"`, and at one decimal `0.01` displays as `0.0` — the
same digits a plain `0.0` would show.  The displayed CPU cell therefore
*does* show 0.0 for warm-up records. -/
theorem cpu_cell_displays_zero_cex :
    rootProc.cpu_percent = 0
    ∧ render_cpu_cell_value rootProc = 1/100
    ∧ bg_fill_cpu_cell_value rootProc = 1/100
    ∧ pyRound1 (render_cpu_cell_value rootProc) = 0
    ∧ pyRound1 (render_cpu_cell_value rootProc) = pyRound1 0 := by
  have h1 : render_cpu_cell_value rootProc = 1/100 := by
    unfold render_cpu_cell_value
    norm_num [rootProc]
  have h0 : pyRound1 ((1 : ℚ)/100) = 0 := by
    have h := pyRound1_low ((1 : ℚ)/100) 0 (by norm_num) (by norm_num)
    rw [h]
    norm_num
  refine ⟨rfl, h1, h1, ?_, ?_⟩
  · rw [h1, h0]
  · rw [h1, h0, pyRound1_zero]

/-- Claim C10 (amended): both render paths clamp the CPU value to
`max(0.01, cpu_percent)` before formatting, but the one-decimal display of
the clamped value is `0.0` whenever `cpu_percent = 0`; indeed for every
nonnegative `cpu_percent` the clamp never changes the one-decimal display
at all. -/
theorem cpu_cell_value_clamped (p : ProcRecord) :
    render_cpu_cell_value p = max (1/100) p.cpu_percent
    ∧ bg_fill_cpu_cell_value p = render_cpu_cell_value p
    ∧ (p.cpu_percent = 0 → pyRound1 (render_cpu_cell_value p) = 0)
    ∧ (0 ≤ p.cpu_percent →
        pyRound1 (render_cpu_cell_value p) = pyRound1 p.cpu_percent) := by
  refine ⟨rfl, rfl, ?_, ?_⟩
  · intro h0
    unfold render_cpu_cell_value
    rw [h0]
    have h1 : max ((1 : ℚ)/100) 0 = 1/100 := by norm_num
    rw [h1]
    have h := pyRound1_low ((1 : ℚ)/100) 0 (by norm_num) (by norm_num)
    rw [h]
    norm_num
  · intro hge
    unfold render_cpu_cell_value
    by_cases hc : (1 : ℚ)/100 ≤ p.cpu_percent
    · rw [max_eq_right hc]
    · have hlt : p.cpu_percent < 1/100 := not_le.mp hc
      have hm : max ((1 : ℚ)/100) p.cpu_percent = 1/100 :=
        max_eq_left (le_of_lt hlt)
      rw [hm]
      have ha : pyRound1 ((1 : ℚ)/100) = ((0 : ℤ) : ℚ)/10 :=
        pyRound1_low ((1 : ℚ)/100) 0 (by norm_num) (by norm_num)
      have hb : pyRound1 p.cpu_percent = ((0 : ℤ) : ℚ)/10 :=
        pyRound1_low p.cpu_percent 0 (by push_cast; linarith)
          (by push_cast; linarith)
      rw [ha, hb]

/-- Claim C10 witness: the amended statement evaluated at the concrete
zero-CPU record. -/
theorem cpu_cell_value_clamped_witness :
    render_cpu_cell_value rootProc = max (1/100) rootProc.cpu_percent
    ∧ bg_fill_cpu_cell_value rootProc = render_cpu_cell_value rootProc
    ∧ pyRound1 (render_cpu_cell_value rootProc) = 0
    ∧ pyRound1 (render_cpu_cell_value rootProc) = pyRound1 rootProc.cpu_percent :=
  ⟨(cpu_cell_value_clamped rootProc).1,
   (cpu_cell_value_clamped rootProc).2.1,
   (cpu_cell_value_clamped rootProc).2.2.1 rfl,
   (cpu_cell_value_clamped rootProc).2.2.2 (le_refl 0)⟩

/-! ### Sampler usernames never carry a domain qualifier

This discharges, for every sampler-produced record, the backslash-freeness
hypothesis of the claim-C6 characterisation. -/

theorem afterLastBackslash_no_backslash (l : List Char) :
    '\\' ∉ afterLastBackslash l := by
  intro hmem
  unfold afterLastBackslash at hmem
  have h := List.mem_takeWhile_imp (List.mem_reverse.mp hmem)
  simp at h

theorem procStep_username_no_backslash (doSample init : Bool)
    (totalMem : Nat) (cache : List (Int × ℚ)) (inp : ProcInput) :
    '\\' ∉ (procStep doSample init totalMem cache inp).1.username.data := by
  intro hmem
  have hmem' := List.take_subset 15 _ hmem
  revert hmem'
  show '\\' ∉ (if (match inp.usernameRaw with
      | none => "unknown"
      | some s => if s = "" then "unknown" else s).data.contains '\\' then
        String.mk (afterLastBackslash (match inp.usernameRaw with
          | none => "unknown"
          | some s => if s = "" then "unknown" else s).data)
      else (match inp.usernameRaw with
        | none => "unknown"
        | some s => if s = "" then "unknown" else s)).data
  by_cases hc : (match inp.usernameRaw with
      | none => "unknown"
      | some s => if s = "" then "unknown" else s).data.contains '\\' = true
  · rw [if_pos hc]
    exact afterLastBackslash_no_backslash _
  · rw [if_neg hc]
    intro hmem'
    exact hc (List.elem_eq_true_of_mem hmem')

/-- Every record a sampling cycle emits has a backslash-free username. -/
theorem runCycle_username_no_backslash (st : FetcherState)
    (inputs : List ProcInput) (r : ProcRecord)
    (hr : r ∈ (runCycle st inputs).1) : '\\' ∉ r.username.data := by
  rw [runCycle_mem] at hr
  obtain ⟨inp, hmem, c', hre⟩ := runProcs_mem_weak _ _ _ _ _ _ hr
  subst hre
  exact procStep_username_no_backslash _ _ _ _ _
